import Mathlib

/-!
# Verification of the `github_webhook` library (`mod.ts` / its sibling source)

Shallow embedding of the webhook dispatch library:
* `validateSignature` — timing-safe signature validation (`mod.ts`, lines 112–123);
* `parseHeaders` — header extraction (`mod.ts`, lines 129–139);
* `handle` — the dispatch pipeline (`mod.ts`, lines 19–42);
* `serveHandler` — the embedded listener's per-request function (`mod.ts`, lines 48–66),
  and `serveHandlerAlt` — the sibling source's variant of the same function;
* `webhookBuilder` (`Builder`) — the fluent registration API (`mod.ts`, lines 79–106).

External collaborators are abstracted by parameters, following the library's imports:
the HMAC library (`hmac('sha256', secret, body, 'utf8', 'hex')`) becomes a parameter
`hmacHex : String → String → String` (secret first, then body, returning the hex digest
text), and `JSON.parse` becomes a parameter `parseJson : String → Option α` (`none`
models a thrown `SyntaxError`).  `console.log` / `console.warn` output is modelled
explicitly as lists of strings where a claim depends on it.

JavaScript truthiness of the nullable strings involved (`string | null`,
`string | undefined`) is modelled by `truthy : Option String → Bool`, which is false
exactly on `none` and `some ""` — matching `!event`, `secret && …`, `!signature`
in the source.
-/

set_option autoImplicit false

namespace GithubWebhook

/-! ## UTF-8 encoding (`new TextEncoder().encode(...)`) -/

/-- The UTF-8 encoding of a single scalar value (a `Char`), as a list of byte
values (each `< 256`, represented as `Nat`).  Standard 1–4 byte encoding. -/
def utf8EncodeChar (c : Char) : List Nat :=
  let n := c.toNat
  if n < 0x80 then [n]
  else if n < 0x800 then [0xC0 + n / 64, 0x80 + n % 64]
  else if n < 0x10000 then [0xE0 + n / 4096, 0x80 + n / 64 % 64, 0x80 + n % 64]
  else [0xF0 + n / 262144, 0x80 + n / 4096 % 64, 0x80 + n / 64 % 64, 0x80 + n % 64]

/-- `new TextEncoder().encode(s)`: the UTF-8 bytes of a string. -/
def utf8Encode (s : String) : List Nat :=
  (s.data.map utf8EncodeChar).flatten

/-- Decoding one UTF-8 scalar from the front of a byte list (used only to prove
that `utf8Encode` is injective). -/
def utf8DecodeOne : List Nat → Option (Nat × List Nat)
  | [] => none
  | b0 :: rest =>
    if b0 < 0x80 then some (b0, rest)
    else if b0 < 0xE0 then
      match rest with
      | b1 :: r => some ((b0 - 0xC0) * 64 + (b1 - 0x80), r)
      | [] => none
    else if b0 < 0xF0 then
      match rest with
      | b1 :: b2 :: r => some (((b0 - 0xE0) * 64 + (b1 - 0x80)) * 64 + (b2 - 0x80), r)
      | _ => none
    else
      match rest with
      | b1 :: b2 :: b3 :: r =>
        some ((((b0 - 0xF0) * 64 + (b1 - 0x80)) * 64 + (b2 - 0x80)) * 64 + (b3 - 0x80), r)
      | _ => none

/-! ## Signature validation (`validateSignature`, `mod.ts` lines 112–123) -/

/-- `timingSafeEqual` from `@std/crypto`: content equality of two byte sequences
(the constant-time execution of the imported routine is an extra-functional
property; its functional contract is plain equality). -/
def timingSafeEqual (a b : List Nat) : Bool :=
  a == b

/-- The `Response` objects the library builds or receives from handlers:
`new Response(undefined, { status })` is `⟨status, none⟩`. -/
structure Response where
  status : Nat
  body : Option String
  deriving DecidableEq

/--
`validateSignature(signature, body, secret, event)` (`mod.ts` lines 112–123).
`hmacHex` stands for the imported `hmac('sha256', secret, body, 'utf8', 'hex')`
(key first, message second, lowercase hex output); `sigHashAlg + '='` is folded
into the literal `"sha256="`.  Returns the boolean verdict together with the
`console.log` diagnostic lines the call emits.
-/
def validateSignature (hmacHex : String → String → String)
    (signature body secret event : String) : Bool × List String :=
  let sig := utf8Encode signature
  let digest := utf8Encode ("sha256=" ++ hmacHex secret body)
  if sig.length != digest.length || !timingSafeEqual digest sig then
    (false, ["[" ++ event ++ "] crypto: fail"])
  else
    (true, ["[" ++ event ++ "] crypto: ok"])

/-! ## Requests, headers and handlers -/

/-- An inbound request as `handle` consumes it: its raw text body
(`await request.text()`) and its header map. -/
structure Request where
  body : String
  headers : List (String × String)

/-- `headers.get(name)`: the value of the first header with the given name,
or `none` when no such header exists (`null` in JS). -/
def headersGet (hs : List (String × String)) (name : String) : Option String :=
  (hs.find? (fun p => p.1 == name)).map (fun p => p.2)

/-- JavaScript truthiness of `string | null` / `string | undefined`:
`null`/`undefined` and the empty string are falsy. -/
def truthy : Option String → Bool
  | none => false
  | some s => !s.isEmpty

/-- Result of `parseHeaders` (`mod.ts` lines 129–139): the two optional header
tokens plus the `console.warn` diagnostics the call emits. -/
structure ParsedHeaders where
  event : Option String
  signature : Option String
  warnings : List String

/-- `parseHeaders(headers)` (`mod.ts` lines 129–139). -/
def parseHeaders (hs : List (String × String)) : ParsedHeaders :=
  let event := headersGet hs "x-github-event"
  let signature := headersGet hs "x-hub-signature-256"
  ⟨event, signature,
    (if !truthy event then ["Header \"x-github-event\" not found"] else []) ++
      (if !truthy signature then ["Header \"x-hub-signature-256\" not found"] else [])⟩

/-- One registered handler entry (the source's `Handler` type): an event name and
a handler function.  The handler's `Response | void | Promise<Response | void>`
result, awaited, is `Except Unit (Option Response)`: `.error ()` models a thrown
fault, `.ok none` a `void` return, `.ok (some r)` a returned `Response`. -/
structure Handler (α : Type) where
  event : String
  handler : α → Except Unit (Option Response)

/-- The `for (const { event: target, handler } of handlers)` loop inside
`handle`'s `try` block (`mod.ts` lines 31–38), together with the surrounding
`catch`: a thrown handler fault yields the 500 response. -/
def runHandlers {α : Type} (ev : String) (payload : α) : List (Handler α) → Option Response
  | [] => none
  | h :: rest =>
    if h.event == ev then
      match h.handler payload with
      | .error _ => some ⟨500, none⟩
      | .ok (some r) => some r
      | .ok none => runHandlers ev payload rest
    else runHandlers ev payload rest

/--
`handle(request, handlers, secret)` (`mod.ts` lines 19–42).
`parseJson` stands for `JSON.parse` (`none` models a thrown `SyntaxError`,
routed to the 500 response by the `catch`).  A `none` result models the
implicit `undefined` return when no handler produced a response.
-/
def handle {α : Type} (hmacHex : String → String → String) (parseJson : String → Option α)
    (req : Request) (handlers : List (Handler α)) (secret : Option String) : Option Response :=
  let body := req.body
  let ph := parseHeaders req.headers
  if !truthy ph.event ||
      (truthy secret &&
        (!truthy ph.signature ||
          !(validateSignature hmacHex (ph.signature.getD "") body (secret.getD "")
              (ph.event.getD "")).1)) then
    some ⟨403, none⟩
  else
    match parseJson body with
    | none => some ⟨500, none⟩
    | some payload => runHandlers (ph.event.getD "") payload handlers

/-! ## Instrumented pipeline (for the temporal claims)

`handleTrace` is `handle` again, but recording the observable internal steps:
each signature verification with its outcome, each `JSON.parse` attempt with
its outcome, and each handler invocation with the handler's position in the
registration list.  The `if` cascade spells out the short-circuit evaluation
of the source's single boolean condition. -/

/-- One observable step of the dispatch pipeline. -/
inductive Ev where
  | verify (ok : Bool)
  | decode (ok : Bool)
  | invoke (idx : Nat)
  deriving DecidableEq

/-- `runHandlers` instrumented with the indices of the invoked handlers
(`i` is the index of the first handler of the current sublist). -/
def dispatchLoop {α : Type} (ev : String) (payload : α) :
    List (Handler α) → Nat → Option Response × List Ev
  | [], _ => (none, [])
  | h :: rest, i =>
    if h.event == ev then
      match h.handler payload with
      | .error _ => (some ⟨500, none⟩, [Ev.invoke i])
      | .ok (some r) => (some r, [Ev.invoke i])
      | .ok none =>
        ((dispatchLoop ev payload rest (i + 1)).1,
          Ev.invoke i :: (dispatchLoop ev payload rest (i + 1)).2)
    else dispatchLoop ev payload rest (i + 1)

/-- The authorized tail of the pipeline: `JSON.parse` then the handler loop. -/
def dispatchAfter {α : Type} (parseJson : String → Option α) (body ev : String)
    (handlers : List (Handler α)) : Option Response × List Ev :=
  match parseJson body with
  | none => (some ⟨500, none⟩, [Ev.decode false])
  | some payload =>
    ((dispatchLoop ev payload handlers 0).1,
      Ev.decode true :: (dispatchLoop ev payload handlers 0).2)

/-- `handle`, instrumented with the trace of observable steps. -/
def handleTrace {α : Type} (hmacHex : String → String → String) (parseJson : String → Option α)
    (req : Request) (handlers : List (Handler α)) (secret : Option String) :
    Option Response × List Ev :=
  let body := req.body
  let ph := parseHeaders req.headers
  if !truthy ph.event then (some ⟨403, none⟩, [])
  else if truthy secret && !truthy ph.signature then (some ⟨403, none⟩, [])
  else if truthy secret then
    if !(validateSignature hmacHex (ph.signature.getD "") body (secret.getD "")
        (ph.event.getD "")).1 then
      (some ⟨403, none⟩, [Ev.verify false])
    else
      ((dispatchAfter parseJson body (ph.event.getD "") handlers).1,
        Ev.verify true :: (dispatchAfter parseJson body (ph.event.getD "") handlers).2)
  else dispatchAfter parseJson body (ph.event.getD "") handlers

/-- The handler indices recorded in a trace, in order. -/
def invokedIdx (tr : List Ev) : List Nat :=
  tr.filterMap (fun e => match e with | Ev.invoke i => some i | _ => none)

/-! ## Embedded listener (`server`, `mod.ts` lines 48–66) and builder -/

/-- An inbound request as the embedded listener sees it: method, the pathname
component of `new URL(request.url)` (for an `http(s)` URL this always starts
with `"/"`), body and headers. -/
structure SrvRequest where
  method : String
  pathname : String
  body : String
  headers : List (String × String)

/-- The per-request function `server` passes to `serve` (`mod.ts` lines 50–63):
route filtering, delegation to `handle`, and the 200 / 404 defaults. -/
def serveHandler {α : Type} (hmacHex : String → String → String) (parseJson : String → Option α)
    (pathname : String) (handlers : List (Handler α)) (secret : Option String)
    (req : SrvRequest) : Response :=
  if req.method == "POST" then
    if req.pathname == pathname then
      match handle hmacHex parseJson ⟨req.body, req.headers⟩ handlers secret with
      | some r => r
      | none => ⟨200, none⟩
    else ⟨404, none⟩
  else ⟨404, none⟩

/-- The sibling source's variant of the same function (`src/unnamed/part_000`,
lines 45–58): the path comparison is `(url.pathname || '/') === (pathname || '/')`,
treating an empty configured token as the root path. -/
def serveHandlerAlt {α : Type} (hmacHex : String → String → String) (parseJson : String → Option α)
    (pathname : String) (handlers : List (Handler α)) (secret : Option String)
    (req : SrvRequest) : Response :=
  if req.method == "POST" then
    if (if req.pathname.isEmpty then "/" else req.pathname) ==
        (if pathname.isEmpty then "/" else pathname) then
      match handle hmacHex parseJson ⟨req.body, req.headers⟩ handlers secret with
      | some r => r
      | none => ⟨200, none⟩
    else ⟨404, none⟩
  else ⟨404, none⟩

/-- The builder value produced by `webhookBuilder(handlers, secret)`
(`mod.ts` lines 79–106): it closes over the handler list and the secret. -/
structure Builder (α : Type) where
  handlers : List (Handler α)
  secret : Option String

/-- `webhook(secret?)` (`mod.ts` lines 72–74): a builder with no handlers. -/
def webhook (α : Type) (secret : Option String) : Builder α :=
  ⟨[], secret⟩

/-- `builder.on(event, handler)` (`mod.ts` lines 84–89): returns a new builder
over `[...handlers, { event, handler }]`; the receiver is not modified. -/
def Builder.on {α : Type} (b : Builder α) (event : String)
    (handler : α → Except Unit (Option Response)) : Builder α :=
  ⟨b.handlers ++ [⟨event, handler⟩], b.secret⟩

/-- `builder.handle(request)` (`mod.ts` lines 103–105). -/
def Builder.run {α : Type} (b : Builder α) (hmacHex : String → String → String)
    (parseJson : String → Option α) (req : Request) : Option Response :=
  handle hmacHex parseJson req b.handlers b.secret

/-- `builder.listen(port, pathname = '')` (`mod.ts` lines 95–97): the request
function of the server it starts (the port only affects the socket binding). -/
def Builder.listenHandler {α : Type} (b : Builder α) (hmacHex : String → String → String)
    (parseJson : String → Option α) (pathname : String) : SrvRequest → Response :=
  serveHandler hmacHex parseJson pathname b.handlers b.secret

/-! ## Helper lemmas -/

theorem utf8DecodeOne_encodeChar (c : Char) (r : List Nat) :
    utf8DecodeOne (utf8EncodeChar c ++ r) = some (c.toNat, r) := by
  have hval : c.toNat < 0x110000 := by
    have := c.valid
    rcases this with h | h
    · exact Nat.lt_trans h (by norm_num)
    · exact h.2
  unfold utf8EncodeChar
  by_cases h1 : c.toNat < 0x80
  · simp only [h1, if_pos]
    simp [utf8DecodeOne, h1]
  · by_cases h2 : c.toNat < 0x800
    · simp only [h1, h2, if_neg, if_pos, not_false_iff]
      have hb0 : ¬ (0xC0 + c.toNat / 64 < 0x80) := by omega
      have hb0' : 0xC0 + c.toNat / 64 < 0xE0 := by omega
      simp only [List.cons_append, utf8DecodeOne, hb0, if_neg, hb0', if_pos,
        not_false_iff]
      simp only [Option.some.injEq, Prod.mk.injEq]
      refine ⟨by omega, rfl⟩
    · by_cases h3 : c.toNat < 0x10000
      · simp only [h1, h2, h3, if_neg, if_pos, not_false_iff]
        have hb0 : ¬ (0xE0 + c.toNat / 4096 < 0x80) := by omega
        have hb0' : ¬ (0xE0 + c.toNat / 4096 < 0xE0) := by omega
        have hb0'' : 0xE0 + c.toNat / 4096 < 0xF0 := by omega
        simp only [List.cons_append, utf8DecodeOne, hb0, hb0', hb0'', if_neg, if_pos,
          not_false_iff]
        simp only [Option.some.injEq, Prod.mk.injEq]
        refine ⟨by omega, rfl⟩
      · simp only [h1, h2, h3, if_neg, not_false_iff]
        have hb0 : ¬ (0xF0 + c.toNat / 262144 < 0x80) := by omega
        have hb0' : ¬ (0xF0 + c.toNat / 262144 < 0xE0) := by omega
        have hb0'' : ¬ (0xF0 + c.toNat / 262144 < 0xF0) := by omega
        simp only [List.cons_append, utf8DecodeOne, hb0, hb0', hb0'', if_neg,
          not_false_iff]
        simp only [Option.some.injEq, Prod.mk.injEq]
        refine ⟨by omega, rfl⟩

theorem utf8EncodeChar_ne_nil (c : Char) : utf8EncodeChar c ≠ [] := by
  unfold utf8EncodeChar
  by_cases h1 : c.toNat < 0x80 <;> by_cases h2 : c.toNat < 0x800 <;>
    by_cases h3 : c.toNat < 0x10000 <;> simp [h1, h2, h3]

theorem char_toNat_inj {c₁ c₂ : Char} (h : c₁.toNat = c₂.toNat) : c₁ = c₂ :=
  Char.eq_of_val_eq (UInt32.ext h)

theorem utf8EncodeList_inj :
    ∀ l₁ l₂ : List Char, (l₁.map utf8EncodeChar).flatten = (l₂.map utf8EncodeChar).flatten → l₁ = l₂
  | [], [], _ => rfl
  | [], c :: _, h => by
    exfalso
    apply utf8EncodeChar_ne_nil c
    simp only [List.map_nil, List.flatten_nil, List.map_cons, List.flatten_cons] at h
    exact (List.append_eq_nil.mp h.symm).1
  | c :: _, [], h => by
    exfalso
    apply utf8EncodeChar_ne_nil c
    simp only [List.map_nil, List.flatten_nil, List.map_cons, List.flatten_cons] at h
    exact (List.append_eq_nil.mp h).1
  | c₁ :: t₁, c₂ :: t₂, h => by
    simp only [List.map_cons, List.flatten_cons] at h
    have h₁ := utf8DecodeOne_encodeChar c₁ ((t₁.map utf8EncodeChar).flatten)
    have h₂ := utf8DecodeOne_encodeChar c₂ ((t₂.map utf8EncodeChar).flatten)
    rw [h] at h₁
    rw [h₁] at h₂
    simp only [Option.some.injEq, Prod.mk.injEq] at h₂
    exact congrArg₂ List.cons (char_toNat_inj h₂.1) (utf8EncodeList_inj t₁ t₂ h₂.2)

theorem utf8Encode_inj {s₁ s₂ : String} (h : utf8Encode s₁ = utf8Encode s₂) : s₁ = s₂ := by
  cases s₁ with
  | mk d₁ =>
    cases s₂ with
    | mk d₂ =>
      have : d₁ = d₂ := utf8EncodeList_inj d₁ d₂ h
      rw [this]

@[simp] theorem invokedIdx_nil : invokedIdx [] = [] := rfl

@[simp] theorem invokedIdx_verify_cons (b : Bool) (tr : List Ev) :
    invokedIdx (Ev.verify b :: tr) = invokedIdx tr := rfl

@[simp] theorem invokedIdx_decode_cons (b : Bool) (tr : List Ev) :
    invokedIdx (Ev.decode b :: tr) = invokedIdx tr := rfl

@[simp] theorem invokedIdx_invoke_cons (i : Nat) (tr : List Ev) :
    invokedIdx (Ev.invoke i :: tr) = i :: invokedIdx tr := rfl

/-- The instrumented loop computes the same result as the plain loop. -/
theorem dispatchLoop_fst {α : Type} (ev : String) (payload : α) :
    ∀ (hs : List (Handler α)) (i : Nat),
      (dispatchLoop ev payload hs i).1 = runHandlers ev payload hs
  | [], _ => rfl
  | h :: rest, i => by
    unfold dispatchLoop runHandlers
    by_cases hm : h.event == ev
    · simp only [hm, if_pos]
      cases h.handler payload with
      | error e => rfl
      | ok o =>
        cases o with
        | none => exact dispatchLoop_fst ev payload rest (i + 1)
        | some r => rfl
    · simp only [hm, if_neg, Bool.false_eq_true, not_false_iff]
      exact dispatchLoop_fst ev payload rest (i + 1)

theorem dispatchAfter_fst {α : Type} (parseJson : String → Option α) (body ev : String)
    (handlers : List (Handler α)) :
    (dispatchAfter parseJson body ev handlers).1 =
      match parseJson body with
      | none => some ⟨500, none⟩
      | some payload => runHandlers ev payload handlers := by
  unfold dispatchAfter
  cases parseJson body with
  | none => rfl
  | some payload => exact dispatchLoop_fst ev payload handlers 0

/-- The instrumented pipeline computes the same result as `handle`. -/
theorem handleTrace_fst {α : Type} (hmacHex : String → String → String)
    (parseJson : String → Option α) (req : Request) (handlers : List (Handler α))
    (secret : Option String) :
    (handleTrace hmacHex parseJson req handlers secret).1 =
      handle hmacHex parseJson req handlers secret := by
  unfold handleTrace handle
  by_cases hte : truthy (parseHeaders req.headers).event
  · by_cases hts : truthy secret
    · by_cases htsg : truthy (parseHeaders req.headers).signature
      · by_cases hv : (validateSignature hmacHex ((parseHeaders req.headers).signature.getD "")
            req.body (secret.getD "") ((parseHeaders req.headers).event.getD "")).1
        · simp [hte, hts, htsg, hv, dispatchAfter_fst]
        · simp [hte, hts, htsg, hv]
      · simp [hte, hts, htsg]
    · simp [hte, hts, dispatchAfter_fst]
  · simp [hte]

/-- Every recorded handler index is at least the starting index, and points at a
handler whose declared event equals the inbound event. -/
theorem dispatchLoop_invoke_mem {α : Type} (ev : String) (payload : α) :
    ∀ (hs : List (Handler α)) (i j : Nat),
      j ∈ invokedIdx (dispatchLoop ev payload hs i).2 →
      i ≤ j ∧ ∃ h, hs[j - i]? = some h ∧ h.event == ev
  | [], _, _, hj => by simp [dispatchLoop] at hj
  | h :: rest, i, j, hj => by
    unfold dispatchLoop at hj
    by_cases hm : h.event == ev
    · simp only [hm, if_pos] at hj
      cases hh : h.handler payload with
      | error e =>
        rw [hh] at hj
        simp only [invokedIdx_invoke_cons, invokedIdx_nil, List.mem_singleton] at hj
        subst hj
        exact ⟨Nat.le_refl _, h, by simp, hm⟩
      | ok o =>
        cases o with
        | some r =>
          rw [hh] at hj
          simp only [invokedIdx_invoke_cons, invokedIdx_nil, List.mem_singleton] at hj
          subst hj
          exact ⟨Nat.le_refl _, h, by simp, hm⟩
        | none =>
          rw [hh] at hj
          simp only [invokedIdx_invoke_cons, List.mem_cons] at hj
          rcases hj with hj | hj
          · subst hj
            exact ⟨Nat.le_refl _, h, by simp, hm⟩
          · obtain ⟨hle, h', hget, hev⟩ := dispatchLoop_invoke_mem ev payload rest (i + 1) j hj
            refine ⟨Nat.le_trans (Nat.le_succ i) hle, h', ?_, hev⟩
            have hji : j - i = (j - (i + 1)) + 1 := by omega
            rw [hji, List.getElem?_cons_succ]
            exact hget
    · simp only [hm, Bool.false_eq_true, if_neg, not_false_iff] at hj
      obtain ⟨hle, h', hget, hev⟩ := dispatchLoop_invoke_mem ev payload rest (i + 1) j hj
      refine ⟨Nat.le_trans (Nat.le_succ i) hle, h', ?_, hev⟩
      have hji : j - i = (j - (i + 1)) + 1 := by omega
      rw [hji, List.getElem?_cons_succ]
      exact hget

/-- The recorded handler indices are strictly increasing. -/
theorem dispatchLoop_invoke_chain {α : Type} (ev : String) (payload : α) :
    ∀ (hs : List (Handler α)) (i : Nat),
      List.Chain' (· < ·) (invokedIdx (dispatchLoop ev payload hs i).2)
  | [], _ => by simp [dispatchLoop]
  | h :: rest, i => by
    unfold dispatchLoop
    by_cases hm : h.event == ev
    · simp only [hm, if_pos]
      cases hh : h.handler payload with
      | error e => simp
      | ok o =>
        cases o with
        | some r => simp
        | none =>
          simp only [invokedIdx_invoke_cons]
          rw [List.chain'_cons']
          refine ⟨?_, dispatchLoop_invoke_chain ev payload rest (i + 1)⟩
          intro b hb
          have hb' : b ∈ invokedIdx (dispatchLoop ev payload rest (i + 1)).2 :=
            List.mem_of_mem_head? hb
          have := (dispatchLoop_invoke_mem ev payload rest (i + 1) b hb').1
          omega
    · simp only [hm, Bool.false_eq_true, if_neg, not_false_iff]
      exact dispatchLoop_invoke_chain ev payload rest (i + 1)

/-- If every registered handler before position `k` that matches the event
returns `void`, and the handler at `k` matches and throws, the loop result is
the 500 response. -/
theorem runHandlers_first_error {α : Type} (ev : String) (payload : α) :
    ∀ (hs : List (Handler α)) (k : Nat) (h' : Handler α),
      hs[k]? = some h' → h'.event == ev → h'.handler payload = .error () →
      (∀ j h'', j < k → hs[j]? = some h'' → h''.event == ev →
        h''.handler payload = .ok none) →
      runHandlers ev payload hs = some ⟨500, none⟩
  | [], k, h', hget, _, _, _ => by simp at hget
  | h :: rest, 0, h', hget, hev, hthrow, _ => by
    simp only [List.getElem?_cons_zero, Option.some.injEq] at hget
    subst hget
    unfold runHandlers
    simp [hev, hthrow]
  | h :: rest, k + 1, h', hget, hev, hthrow, hprior => by
    rw [List.getElem?_cons_succ] at hget
    unfold runHandlers
    by_cases hm : h.event == ev
    · have h0 : h.handler payload = .ok none :=
        hprior 0 h (Nat.succ_pos k) (by simp) hm
      simp only [hm, if_pos, h0]
      exact runHandlers_first_error ev payload rest k h' hget hev hthrow
        (fun j h'' hj hg he => hprior (j + 1) h'' (by omega)
          (by rw [List.getElem?_cons_succ]; exact hg) he)
    · simp only [hm, Bool.false_eq_true, if_neg, not_false_iff]
      exact runHandlers_first_error ev payload rest k h' hget hev hthrow
        (fun j h'' hj hg he => hprior (j + 1) h'' (by omega)
          (by rw [List.getElem?_cons_succ]; exact hg) he)

/-- If every registered handler before position `k` that matches the event
returns `void`, and the handler at `k` matches and returns response `r`, the
loop result is `r`. -/
theorem runHandlers_first_some {α : Type} (ev : String) (payload : α) :
    ∀ (hs : List (Handler α)) (k : Nat) (h' : Handler α) (r : Response),
      hs[k]? = some h' → h'.event == ev → h'.handler payload = .ok (some r) →
      (∀ j h'', j < k → hs[j]? = some h'' → h''.event == ev →
        h''.handler payload = .ok none) →
      runHandlers ev payload hs = some r
  | [], k, h', r, hget, _, _, _ => by simp at hget
  | h :: rest, 0, h', r, hget, hev, hresp, _ => by
    simp only [List.getElem?_cons_zero, Option.some.injEq] at hget
    subst hget
    unfold runHandlers
    simp [hev, hresp]
  | h :: rest, k + 1, h', r, hget, hev, hresp, hprior => by
    rw [List.getElem?_cons_succ] at hget
    unfold runHandlers
    by_cases hm : h.event == ev
    · have h0 : h.handler payload = .ok none :=
        hprior 0 h (Nat.succ_pos k) (by simp) hm
      simp only [hm, if_pos, h0]
      exact runHandlers_first_some ev payload rest k h' r hget hev hresp
        (fun j h'' hj hg he => hprior (j + 1) h'' (by omega)
          (by rw [List.getElem?_cons_succ]; exact hg) he)
    · simp only [hm, Bool.false_eq_true, if_neg, not_false_iff]
      exact runHandlers_first_some ev payload rest k h' r hget hev hresp
        (fun j h'' hj hg he => hprior (j + 1) h'' (by omega)
          (by rw [List.getElem?_cons_succ]; exact hg) he)

/-- If no registered handler's event equals the inbound event, the loop result
is absent. -/
theorem runHandlers_no_match {α : Type} (ev : String) (payload : α) :
    ∀ hs : List (Handler α), (∀ h ∈ hs, h.event ≠ ev) →
      runHandlers ev payload hs = none
  | [], _ => rfl
  | h :: rest, hno => by
    unfold runHandlers
    have : (h.event == ev) = false := by
      simp only [beq_eq_false_iff_ne, ne_eq]
      exact hno h (List.mem_cons_self _ _)
    simp only [this, Bool.false_eq_true, if_neg, not_false_iff]
    exact runHandlers_no_match ev payload rest (fun h' hh => hno h' (List.mem_cons_of_mem _ hh))

/-- The loop result is absent, the 500 response, or a response returned by a
matching registered handler. -/
theorem runHandlers_cases {α : Type} (ev : String) (payload : α) :
    ∀ hs : List (Handler α),
      runHandlers ev payload hs = none ∨
      runHandlers ev payload hs = some ⟨500, none⟩ ∨
      ∃ h r, h ∈ hs ∧ h.event = ev ∧ h.handler payload = .ok (some r) ∧
        runHandlers ev payload hs = some r
  | [] => Or.inl rfl
  | h :: rest => by
    unfold runHandlers
    by_cases hm : h.event == ev
    · simp only [hm, if_pos]
      cases hh : h.handler payload with
      | error e => exact Or.inr (Or.inl rfl)
      | ok o =>
        cases o with
        | some r =>
          refine Or.inr (Or.inr ⟨h, r, List.mem_cons_self _ _, ?_, hh, rfl⟩)
          exact beq_iff_eq.mp hm
        | none =>
          rcases runHandlers_cases ev payload rest with hc | hc | ⟨h', r, hmem, hev, hresp, hres⟩
          · exact Or.inl hc
          · exact Or.inr (Or.inl hc)
          · exact Or.inr (Or.inr ⟨h', r, List.mem_cons_of_mem _ hmem, hev, hresp, hres⟩)
    · simp only [hm, Bool.false_eq_true, if_neg, not_false_iff]
      rcases runHandlers_cases ev payload rest with hc | hc | ⟨h', r, hmem, hev, hresp, hres⟩
      · exact Or.inl hc
      · exact Or.inr (Or.inl hc)
      · exact Or.inr (Or.inr ⟨h', r, List.mem_cons_of_mem _ hmem, hev, hresp, hres⟩)

/-- The verdict of `validateSignature` is `true` exactly when the supplied
signature string equals the expected digest string. -/
theorem validateSignature_fst_iff (hmacHex : String → String → String)
    (sig body secret ev : String) :
    (validateSignature hmacHex sig body secret ev).1 = true ↔
      sig = "sha256=" ++ hmacHex secret body := by
  unfold validateSignature timingSafeEqual
  by_cases he : utf8Encode sig = utf8Encode ("sha256=" ++ hmacHex secret body)
  · rw [he]
    simp only [bne_self_eq_false, beq_self_eq_true, Bool.not_true, Bool.or_false,
      Bool.false_eq_true, if_neg, not_false_iff]
    simp only [true_iff]
    exact utf8Encode_inj he
  · have hcond : (((utf8Encode sig).length !=
        (utf8Encode ("sha256=" ++ hmacHex secret body)).length) ||
        !(utf8Encode ("sha256=" ++ hmacHex secret body) == utf8Encode sig)) = true := by
      by_cases hlen : (utf8Encode sig).length =
          (utf8Encode ("sha256=" ++ hmacHex secret body)).length
      · have : (utf8Encode ("sha256=" ++ hmacHex secret body) == utf8Encode sig) = false := by
          simp only [beq_eq_false_iff_ne, ne_eq]
          exact fun hh => he hh.symm
        simp [this]
      · simp [bne_iff_ne, hlen]
    simp only [hcond, if_pos]
    simp only [Bool.false_eq_true, false_iff]
    intro hh
    exact he (by rw [hh])

/-- If the byte lengths differ, the verdict is `false`. -/
theorem validateSignature_len_ne (hmacHex : String → String → String)
    (sig body secret ev : String)
    (h : (utf8Encode sig).length ≠
      (utf8Encode ("sha256=" ++ hmacHex secret body)).length) :
    (validateSignature hmacHex sig body secret ev).1 = false := by
  unfold validateSignature
  simp [bne_iff_ne, h]

/-- Under an authorized request (event token truthy; when the secret is truthy,
the signature token is truthy and validation succeeds), `handle` runs
`JSON.parse` and, on success, the handler loop. -/
theorem handle_authorized {α : Type} (hmacHex : String → String → String)
    (parseJson : String → Option α) (req : Request) (handlers : List (Handler α))
    (secret : Option String)
    (hte : truthy (parseHeaders req.headers).event = true)
    (hsec : truthy secret = true →
      truthy (parseHeaders req.headers).signature = true ∧
      (validateSignature hmacHex ((parseHeaders req.headers).signature.getD "") req.body
        (secret.getD "") ((parseHeaders req.headers).event.getD "")).1 = true) :
    handle hmacHex parseJson req handlers secret =
      match parseJson req.body with
      | none => some ⟨500, none⟩
      | some payload =>
        runHandlers ((parseHeaders req.headers).event.getD "") payload handlers := by
  unfold handle
  by_cases hts : truthy secret
  · obtain ⟨htsg, hv⟩ := hsec hts
    simp [hte, hts, htsg, hv]
  · simp [hte, hts]

/-- Under an authorized request with a decodable body, the instrumented
pipeline's result and recorded handler invocations are those of the loop. -/
theorem handleTrace_authorized {α : Type} (hmacHex : String → String → String)
    (parseJson : String → Option α) (req : Request) (handlers : List (Handler α))
    (secret : Option String) (payload : α)
    (hte : truthy (parseHeaders req.headers).event = true)
    (hsec : truthy secret = true →
      truthy (parseHeaders req.headers).signature = true ∧
      (validateSignature hmacHex ((parseHeaders req.headers).signature.getD "") req.body
        (secret.getD "") ((parseHeaders req.headers).event.getD "")).1 = true)
    (hp : parseJson req.body = some payload) :
    (handleTrace hmacHex parseJson req handlers secret).1 =
      (dispatchLoop ((parseHeaders req.headers).event.getD "") payload handlers 0).1 ∧
    invokedIdx (handleTrace hmacHex parseJson req handlers secret).2 =
      invokedIdx (dispatchLoop ((parseHeaders req.headers).event.getD "") payload handlers 0).2 := by
  unfold handleTrace
  by_cases hts : truthy secret
  · obtain ⟨htsg, hv⟩ := hsec hts
    simp [hte, hts, htsg, hv, dispatchAfter, hp]
  · simp [hte, hts, dispatchAfter, hp]

/-- If every matching handler before position `k` returns `void` and the
handler at `k` matches and does not return `void`, the loop invokes exactly
the matching handlers up to and including `k`. -/
theorem dispatchLoop_first_stop {α : Type} (ev : String) (payload : α) :
    ∀ (hs : List (Handler α)) (i k : Nat) (h' : Handler α),
      hs[k]? = some h' → h'.event == ev → h'.handler payload ≠ .ok none →
      (∀ j h'', j < k → hs[j]? = some h'' → h''.event == ev →
        h''.handler payload = .ok none) →
      (i + k) ∈ invokedIdx (dispatchLoop ev payload hs i).2 ∧
      (∀ m ∈ invokedIdx (dispatchLoop ev payload hs i).2, m ≤ i + k) ∧
      (∀ j h'', j < k → hs[j]? = some h'' → h''.event == ev →
        (i + j) ∈ invokedIdx (dispatchLoop ev payload hs i).2)
  | [], i, k, h', hget, _, _, _ => by simp at hget
  | h :: rest, i, 0, h', hget, hev, hstop, _ => by
    simp only [List.getElem?_cons_zero, Option.some.injEq] at hget
    subst hget
    unfold dispatchLoop
    simp only [hev, if_pos]
    cases hh : h.handler payload with
    | error e => simp
    | ok o =>
      cases o with
      | some r => simp
      | none => exact absurd hh hstop
  | h :: rest, i, k + 1, h', hget, hev, hstop, hprior => by
    rw [List.getElem?_cons_succ] at hget
    unfold dispatchLoop
    by_cases hm : h.event == ev
    · have h0 : h.handler payload = .ok none :=
        hprior 0 h (Nat.succ_pos k) (by simp) hm
      simp only [hm, if_pos, h0, invokedIdx_invoke_cons]
      obtain ⟨hmem, hbound, hall⟩ := dispatchLoop_first_stop ev payload rest (i + 1) k h'
        hget hev hstop
        (fun j h'' hj hg he => hprior (j + 1) h'' (by omega)
          (by rw [List.getElem?_cons_succ]; exact hg) he)
      refine ⟨?_, ?_, ?_⟩
      · apply List.mem_cons_of_mem
        have : i + (k + 1) = (i + 1) + k := by omega
        rw [this]
        exact hmem
      · intro m hmm
        rcases List.mem_cons.mp hmm with hmm | hmm
        · omega
        · have := hbound m hmm
          omega
      · intro j h'' hj hg he
        cases j with
        | zero => exact List.mem_cons_self _ _
        | succ j' =>
          apply List.mem_cons_of_mem
          rw [List.getElem?_cons_succ] at hg
          have : i + (j' + 1) = (i + 1) + j' := by omega
          rw [this]
          exact hall j' h'' (by omega) hg he
    · simp only [hm, Bool.false_eq_true, if_neg, not_false_iff]
      obtain ⟨hmem, hbound, hall⟩ := dispatchLoop_first_stop ev payload rest (i + 1) k h'
        hget hev hstop
        (fun j h'' hj hg he => hprior (j + 1) h'' (by omega)
          (by rw [List.getElem?_cons_succ]; exact hg) he)
      refine ⟨?_, ?_, ?_⟩
      · have : i + (k + 1) = (i + 1) + k := by omega
        rw [this]
        exact hmem
      · intro m hmm
        have := hbound m hmm
        omega
      · intro j h'' hj hg he
        cases j with
        | zero =>
          exfalso
          simp only [List.getElem?_cons_zero, Option.some.injEq] at hg
          subst hg
          exact absurd he (by simp [hm])
        | succ j' =>
          rw [List.getElem?_cons_succ] at hg
          have : i + (j' + 1) = (i + 1) + j' := by omega
          rw [this]
          exact hall j' h'' (by omega) hg he

/-- When the configured secret is truthy, the recorded trace is empty (rejection
before verification), a single failed verification, or a successful verification
followed by the decode/dispatch steps. -/
theorem handleTrace_secret_shape {α : Type} (hmacHex : String → String → String)
    (parseJson : String → Option α) (req : Request) (handlers : List (Handler α))
    (secret : Option String) (hsec : truthy secret = true) :
    (handleTrace hmacHex parseJson req handlers secret).2 = [] ∨
    (handleTrace hmacHex parseJson req handlers secret).2 = [Ev.verify false] ∨
    ((handleTrace hmacHex parseJson req handlers secret).2 =
      Ev.verify true ::
        (dispatchAfter parseJson req.body ((parseHeaders req.headers).event.getD "")
          handlers).2 ∧
      truthy (parseHeaders req.headers).signature = true ∧
      (validateSignature hmacHex ((parseHeaders req.headers).signature.getD "") req.body
        (secret.getD "") ((parseHeaders req.headers).event.getD "")).1 = true) := by
  unfold handleTrace
  by_cases hte : truthy (parseHeaders req.headers).event
  · by_cases htsg : truthy (parseHeaders req.headers).signature
    · by_cases hv : (validateSignature hmacHex ((parseHeaders req.headers).signature.getD "")
          req.body (secret.getD "") ((parseHeaders req.headers).event.getD "")).1
      · right; right
        refine ⟨?_, htsg, hv⟩
        simp [hte, hsec, htsg, hv]
      · right; left
        simp [hte, hsec, htsg, hv]
    · left
      simp [hte, hsec, htsg]
  · left
    simp [hte]

/-! ## Claims -/

/-- Claim C1: for every signature string `sig`, body `B`, non-empty secret `S` and
event name `e`, `validateSignature(sig, B, S, e)` returns `true` if and only if
`sig` equals `"sha256="` followed by the (lowercase hex) digest the HMAC library
returns for key `S` and message `B`; in particular the verdict is `false`
whenever the UTF-8 byte length of `sig` differs from that of the expected string
(and the function is total, so it never throws). -/
theorem claim1_validateSignature_iff (hmacHex : String → String → String)
    (sig B S e : String) (hS : S ≠ "") :
    ((validateSignature hmacHex sig B S e).1 = true ↔
      sig = "sha256=" ++ hmacHex S B) ∧
    ((utf8Encode sig).length ≠ (utf8Encode ("sha256=" ++ hmacHex S B)).length →
      (validateSignature hmacHex sig B S e).1 = false) :=
  ⟨validateSignature_fst_iff hmacHex sig B S e,
    validateSignature_len_ne hmacHex sig B S e⟩

/-- Witness for C1 at a concrete instantiation: the correctly formatted
signature verifies, and the claimed equivalence holds there. -/
theorem claim1_witness :
    "k" ≠ "" ∧
    (((validateSignature (fun _ _ => "ff") "sha256=ff" "{}" "k" "push").1 = true ↔
      "sha256=ff" = "sha256=" ++ (fun _ _ => "ff") "k" "{}") ∧
    ((utf8Encode "sha256=ff").length ≠
        (utf8Encode ("sha256=" ++ (fun _ _ => "ff") "k" "{}")).length →
      (validateSignature (fun _ _ => "ff") "sha256=ff" "{}" "k" "push").1 = false)) :=
  ⟨by decide, claim1_validateSignature_iff (fun _ _ => "ff") "sha256=ff" "{}" "k" "push"
    (by decide)⟩

/-- Claim C10: the event-name argument of `validateSignature` influences only the
diagnostic output, never the boolean verdict. -/
theorem claim10_event_independent (hmacHex : String → String → String)
    (sig body secret e1 e2 : String) :
    (validateSignature hmacHex sig body secret e1).1 =
      (validateSignature hmacHex sig body secret e2).1 := by
  by_cases h : sig = "sha256=" ++ hmacHex secret body
  · rw [(validateSignature_fst_iff hmacHex sig body secret e1).mpr h,
      (validateSignature_fst_iff hmacHex sig body secret e2).mpr h]
  · rw [Bool.eq_false_iff.mpr
        (fun hv => h ((validateSignature_fst_iff hmacHex sig body secret e1).mp hv)),
      Bool.eq_false_iff.mpr
        (fun hv => h ((validateSignature_fst_iff hmacHex sig body secret e2).mp hv))]

/-- Claim C9: `handle` with the secret explicitly set to the empty string behaves
exactly like `handle` with no secret: the empty string is falsy, so verification
is skipped; moreover any content of the signature header is then ignored. -/
theorem claim9_empty_secret {α : Type} (hmacHex : String → String → String)
    (parseJson : String → Option α) (req : Request) (handlers : List (Handler α)) :
    handle hmacHex parseJson req handlers (some "") =
      handle hmacHex parseJson req handlers none ∧
    (∀ (body s1 s2 : String) (hs : List (String × String)),
      handle hmacHex parseJson ⟨body, ("x-hub-signature-256", s1) :: hs⟩ handlers (some "") =
        handle hmacHex parseJson ⟨body, ("x-hub-signature-256", s2) :: hs⟩ handlers (some "")) :=
  ⟨rfl, fun _ _ _ _ => rfl⟩

/-- Claim C8: `on(event, handler)` returns a new builder whose handler sequence
is the old one with the new entry appended, the receiver keeps its own handler
sequence and secret, and the receiver's `handle` still dispatches over the
original sequence. -/
theorem claim8_builder_on {α : Type} (b : Builder α) (e : String)
    (f : α → Except Unit (Option Response)) :
    (b.on e f).handlers = b.handlers ++ [⟨e, f⟩] ∧
    (b.on e f).secret = b.secret ∧
    (∀ (hmacHex : String → String → String) (parseJson : String → Option α) (req : Request),
      b.run hmacHex parseJson req = handle hmacHex parseJson req b.handlers b.secret) ∧
    (∀ (hmacHex : String → String → String) (parseJson : String → Option α) (req : Request),
      (b.on e f).run hmacHex parseJson req =
        handle hmacHex parseJson req (b.handlers ++ [⟨e, f⟩]) b.secret) :=
  ⟨rfl, rfl, fun _ _ _ => rfl, fun _ _ _ => rfl⟩

/-- Claim C2: when a (truthy) secret is configured, the pipeline decodes the
body or invokes a handler only after signature verification has run and
returned `true` for this request's body and signature; a first trace step of
`verify true` indeed certifies that the signature header was present and that
`validateSignature` returned `true`.  The instrumented pipeline agrees with
`handle`. -/
theorem claim2_verify_before_dispatch {α : Type} (hmacHex : String → String → String)
    (parseJson : String → Option α) (req : Request) (handlers : List (Handler α))
    (secret : Option String) (hsec : truthy secret = true) :
    (handleTrace hmacHex parseJson req handlers secret).1 =
      handle hmacHex parseJson req handlers secret ∧
    (∀ e ∈ (handleTrace hmacHex parseJson req handlers secret).2,
      ((∃ b, e = Ev.decode b) ∨ (∃ i, e = Ev.invoke i)) →
      (handleTrace hmacHex parseJson req handlers secret).2.head? =
        some (Ev.verify true)) ∧
    ((handleTrace hmacHex parseJson req handlers secret).2.head? =
        some (Ev.verify true) →
      truthy (parseHeaders req.headers).signature = true ∧
      (validateSignature hmacHex ((parseHeaders req.headers).signature.getD "") req.body
        (secret.getD "") ((parseHeaders req.headers).event.getD "")).1 = true) := by
  refine ⟨handleTrace_fst hmacHex parseJson req handlers secret, ?_, ?_⟩
  · intro e he hkind
    rcases handleTrace_secret_shape hmacHex parseJson req handlers secret hsec with
      h | h | ⟨h, _, _⟩
    · rw [h] at he
      simp at he
    · rw [h] at he
      simp only [List.mem_singleton] at he
      subst he
      rcases hkind with ⟨b, hb⟩ | ⟨i, hi⟩
      · simp at hb
      · simp at hi
    · rw [h]
      rfl
  · intro hhead
    rcases handleTrace_secret_shape hmacHex parseJson req handlers secret hsec with
      h | h | ⟨_, htsg, hv⟩
    · rw [h] at hhead
      simp at hhead
    · rw [h] at hhead
      simp at hhead
    · exact ⟨htsg, hv⟩

/-- Witness for C2 at a concrete instantiation with a configured secret and a
correctly signed request. -/
theorem claim2_witness :
    truthy (some "k") = true ∧
    ((handleTrace (α := Unit) (fun _ _ => "ab") (fun _ => some ())
        ⟨"{}", [("x-github-event", "push"), ("x-hub-signature-256", "sha256=ab")]⟩
        [] (some "k")).1 =
      handle (α := Unit) (fun _ _ => "ab") (fun _ => some ())
        ⟨"{}", [("x-github-event", "push"), ("x-hub-signature-256", "sha256=ab")]⟩
        [] (some "k") ∧
    (∀ e ∈ (handleTrace (α := Unit) (fun _ _ => "ab") (fun _ => some ())
        ⟨"{}", [("x-github-event", "push"), ("x-hub-signature-256", "sha256=ab")]⟩
        [] (some "k")).2,
      ((∃ b, e = Ev.decode b) ∨ (∃ i, e = Ev.invoke i)) →
      (handleTrace (α := Unit) (fun _ _ => "ab") (fun _ => some ())
        ⟨"{}", [("x-github-event", "push"), ("x-hub-signature-256", "sha256=ab")]⟩
        [] (some "k")).2.head? = some (Ev.verify true)) ∧
    ((handleTrace (α := Unit) (fun _ _ => "ab") (fun _ => some ())
        ⟨"{}", [("x-github-event", "push"), ("x-hub-signature-256", "sha256=ab")]⟩
        [] (some "k")).2.head? = some (Ev.verify true) →
      truthy (parseHeaders [("x-github-event", "push"),
        ("x-hub-signature-256", "sha256=ab")]).signature = true ∧
      (validateSignature (fun _ _ => "ab")
        ((parseHeaders [("x-github-event", "push"),
          ("x-hub-signature-256", "sha256=ab")]).signature.getD "") "{}"
        ((some "k").getD "")
        ((parseHeaders [("x-github-event", "push"),
          ("x-hub-signature-256", "sha256=ab")]).event.getD "")).1 = true)) :=
  ⟨by decide, claim2_verify_before_dispatch (fun _ _ => "ab") (fun _ => some ())
    ⟨"{}", [("x-github-event", "push"), ("x-hub-signature-256", "sha256=ab")]⟩
    [] (some "k") (by decide)⟩

/-- Counterexample to C3 as stated: with no secret configured, the event header
present and a parseable body, a registered handler that itself returns a
bodiless 403 response makes `handle` return a 403 response with no body even
though none of the claim's rejection conditions holds — so "exactly when"
fails. -/
theorem claim3_counterexample :
    handle (α := Unit) (fun _ _ => "") (fun _ => some ())
        ⟨"{}", [("x-github-event", "star")]⟩
        [⟨"star", fun _ => Except.ok (some ⟨403, none⟩)⟩] none =
      some ⟨403, none⟩ ∧
    truthy (parseHeaders [("x-github-event", "star")]).event = true ∧
    truthy (none : Option String) = false := by decide

/-- Claim C3 (amended): `handle` returns the bodiless 403 response whenever the
event token is falsy, or the secret is truthy and the signature token is falsy
or verification returns `false`; conversely, when none of these rejection
conditions holds, the result is absent, the bodiless 500 response, or a
response that a registered handler matching the inbound event returned on the
decoded payload (which may itself happen to be a bodiless 403). -/
theorem claim3_rejection_403 {α : Type} (hmacHex : String → String → String)
    (parseJson : String → Option α) (req : Request) (handlers : List (Handler α))
    (secret : Option String) :
    ((truthy (parseHeaders req.headers).event = false ∨
      (truthy secret = true ∧
        (truthy (parseHeaders req.headers).signature = false ∨
          (validateSignature hmacHex ((parseHeaders req.headers).signature.getD "") req.body
            (secret.getD "") ((parseHeaders req.headers).event.getD "")).1 = false))) →
      handle hmacHex parseJson req handlers secret = some ⟨403, none⟩) ∧
    (¬(truthy (parseHeaders req.headers).event = false ∨
      (truthy secret = true ∧
        (truthy (parseHeaders req.headers).signature = false ∨
          (validateSignature hmacHex ((parseHeaders req.headers).signature.getD "") req.body
            (secret.getD "") ((parseHeaders req.headers).event.getD "")).1 = false))) →
      handle hmacHex parseJson req handlers secret = none ∨
      handle hmacHex parseJson req handlers secret = some ⟨500, none⟩ ∨
      ∃ payload h r, parseJson req.body = some payload ∧ h ∈ handlers ∧
        h.event = (parseHeaders req.headers).event.getD "" ∧
        h.handler payload = Except.ok (some r) ∧
        handle hmacHex parseJson req handlers secret = some r) := by
  constructor
  · intro hrej
    unfold handle
    rcases hrej with hte | ⟨hts, hrest⟩
    · simp [hte]
    · rcases hrest with htsg | hv
      · simp [hts, htsg]
      · simp [hts, hv]
  · intro hok
    push_neg at hok
    obtain ⟨hte, hrest⟩ := hok
    have hte' : truthy (parseHeaders req.headers).event = true :=
      eq_true_of_ne_false hte
    have hsec : truthy secret = true →
        truthy (parseHeaders req.headers).signature = true ∧
        (validateSignature hmacHex ((parseHeaders req.headers).signature.getD "") req.body
          (secret.getD "") ((parseHeaders req.headers).event.getD "")).1 = true := by
      intro hts
      obtain ⟨htsg, hv⟩ := hrest hts
      exact ⟨eq_true_of_ne_false htsg, eq_true_of_ne_false hv⟩
    rw [handle_authorized hmacHex parseJson req handlers secret hte' hsec]
    cases hp : parseJson req.body with
    | none => exact Or.inr (Or.inl rfl)
    | some payload =>
      rcases runHandlers_cases ((parseHeaders req.headers).event.getD "") payload handlers with
        hc | hc | ⟨h, r, hmem, hev, hresp, hres⟩
      · exact Or.inl hc
      · exact Or.inr (Or.inl hc)
      · exact Or.inr (Or.inr ⟨payload, h, r, rfl, hmem, hev, hresp, hres⟩)

/-- Witness for the amended C3: a request with the event header missing is
rejected with the bodiless 403. -/
theorem claim3_witness :
    handle (α := Unit) (fun _ _ => "") (fun _ => some ()) ⟨"{}", []⟩ [] none =
      some ⟨403, none⟩ :=
  (claim3_rejection_403 (fun _ _ => "") (fun _ => some ()) ⟨"{}", []⟩ [] none).1
    (Or.inl (by decide))

/-- Claim C4: on an authorized request with a decodable body, only handlers
whose declared event equals the inbound event are ever invoked; invocations
happen in registration order (strictly increasing indices); and if the first
matching handler (at position `k`) whose result is not `void` returns a
response `r`, then `handle` returns `r`, handler `k` is invoked, every matching
handler before `k` is invoked, and no handler after `k` is invoked. -/
theorem claim4_dispatch_order {α : Type} (hmacHex : String → String → String)
    (parseJson : String → Option α) (req : Request) (handlers : List (Handler α))
    (secret : Option String) (payload : α)
    (hte : truthy (parseHeaders req.headers).event = true)
    (hsec : truthy secret = true →
      truthy (parseHeaders req.headers).signature = true ∧
      (validateSignature hmacHex ((parseHeaders req.headers).signature.getD "") req.body
        (secret.getD "") ((parseHeaders req.headers).event.getD "")).1 = true)
    (hp : parseJson req.body = some payload) :
    (∀ i ∈ invokedIdx (handleTrace hmacHex parseJson req handlers secret).2,
      ∃ h, handlers[i]? = some h ∧
        h.event = (parseHeaders req.headers).event.getD "") ∧
    List.Chain' (· < ·)
      (invokedIdx (handleTrace hmacHex parseJson req handlers secret).2) ∧
    (∀ (k : Nat) (h' : Handler α) (r : Response),
      handlers[k]? = some h' →
      h'.event = (parseHeaders req.headers).event.getD "" →
      h'.handler payload = Except.ok (some r) →
      (∀ (j : Nat) (h'' : Handler α), j < k → handlers[j]? = some h'' →
        h''.event = (parseHeaders req.headers).event.getD "" →
        h''.handler payload = Except.ok none) →
      handle hmacHex parseJson req handlers secret = some r ∧
      k ∈ invokedIdx (handleTrace hmacHex parseJson req handlers secret).2 ∧
      (∀ m ∈ invokedIdx (handleTrace hmacHex parseJson req handlers secret).2, m ≤ k) ∧
      (∀ (j : Nat) (h'' : Handler α), j < k → handlers[j]? = some h'' →
        h''.event = (parseHeaders req.headers).event.getD "" →
        j ∈ invokedIdx (handleTrace hmacHex parseJson req handlers secret).2)) := by
  obtain ⟨hres, htr⟩ :=
    handleTrace_authorized hmacHex parseJson req handlers secret payload hte hsec hp
  refine ⟨?_, ?_, ?_⟩
  · intro i hi
    rw [htr] at hi
    obtain ⟨_, h, hg, hev⟩ := dispatchLoop_invoke_mem
      ((parseHeaders req.headers).event.getD "") payload handlers 0 i hi
    rw [Nat.sub_zero] at hg
    exact ⟨h, hg, beq_iff_eq.mp hev⟩
  · rw [htr]
    exact dispatchLoop_invoke_chain ((parseHeaders req.headers).event.getD "")
      payload handlers 0
  · intro k h' r hk hev hr hprior
    have hstop : h'.handler payload ≠ Except.ok none := by
      rw [hr]
      intro hx
      simp at hx
    obtain ⟨hmem, hbound, hall⟩ := dispatchLoop_first_stop
      ((parseHeaders req.headers).event.getD "") payload handlers 0 k h' hk
      (beq_iff_eq.mpr hev) hstop
      (fun j h'' hj hg he => hprior j h'' hj hg (beq_iff_eq.mp he))
    rw [Nat.zero_add] at hmem
    refine ⟨?_, ?_, ?_, ?_⟩
    · rw [handle_authorized hmacHex parseJson req handlers secret hte hsec, hp]
      exact runHandlers_first_some ((parseHeaders req.headers).event.getD "") payload
        handlers k h' r hk (beq_iff_eq.mpr hev) hr
        (fun j h'' hj hg he => hprior j h'' hj hg (beq_iff_eq.mp he))
    · rw [htr]
      exact hmem
    · intro m hm
      rw [htr] at hm
      have := hbound m hm
      omega
    · intro j h'' hj hg he
      rw [htr]
      have := hall j h'' hj hg (beq_iff_eq.mpr he)
      rw [Nat.zero_add] at this
      exact this

/-- Witness for C4: events `["push", "star", "star", "star"]`, inbound event
`"star"`; the first `"star"` handler returns `void`, the second returns a 201
response, so `handle` returns the 201 response and the last handler stays
uninvoked. -/
theorem claim4_witness :
    (∀ i ∈ invokedIdx (handleTrace (α := Unit) (fun _ _ => "") (fun _ => some ())
        ⟨"{}", [("x-github-event", "star")]⟩
        [⟨"push", fun _ => Except.ok (some ⟨202, none⟩)⟩,
         ⟨"star", fun _ => Except.ok none⟩,
         ⟨"star", fun _ => Except.ok (some ⟨201, none⟩)⟩,
         ⟨"star", fun _ => Except.ok (some ⟨203, none⟩)⟩] none).2,
      ∃ h, [⟨"push", fun _ => Except.ok (some ⟨202, none⟩)⟩,
         ⟨"star", fun _ => Except.ok none⟩,
         ⟨"star", fun _ => Except.ok (some ⟨201, none⟩)⟩,
         (⟨"star", fun _ => Except.ok (some ⟨203, none⟩)⟩ : Handler Unit)][i]? = some h ∧
        h.event = (parseHeaders [("x-github-event", "star")]).event.getD "") ∧
    List.Chain' (· < ·) (invokedIdx (handleTrace (α := Unit) (fun _ _ => "")
      (fun _ => some ()) ⟨"{}", [("x-github-event", "star")]⟩
      [⟨"push", fun _ => Except.ok (some ⟨202, none⟩)⟩,
       ⟨"star", fun _ => Except.ok none⟩,
       ⟨"star", fun _ => Except.ok (some ⟨201, none⟩)⟩,
       ⟨"star", fun _ => Except.ok (some ⟨203, none⟩)⟩] none).2) ∧
    handle (α := Unit) (fun _ _ => "") (fun _ => some ())
      ⟨"{}", [("x-github-event", "star")]⟩
      [⟨"push", fun _ => Except.ok (some ⟨202, none⟩)⟩,
       ⟨"star", fun _ => Except.ok none⟩,
       ⟨"star", fun _ => Except.ok (some ⟨201, none⟩)⟩,
       ⟨"star", fun _ => Except.ok (some ⟨203, none⟩)⟩] none = some ⟨201, none⟩ ∧
    invokedIdx (handleTrace (α := Unit) (fun _ _ => "") (fun _ => some ())
      ⟨"{}", [("x-github-event", "star")]⟩
      [⟨"push", fun _ => Except.ok (some ⟨202, none⟩)⟩,
       ⟨"star", fun _ => Except.ok none⟩,
       ⟨"star", fun _ => Except.ok (some ⟨201, none⟩)⟩,
       ⟨"star", fun _ => Except.ok (some ⟨203, none⟩)⟩] none).2 = [1, 2] := by
  have h := claim4_dispatch_order (α := Unit) (fun _ _ => "") (fun _ => some ())
    ⟨"{}", [("x-github-event", "star")]⟩
    [⟨"push", fun _ => Except.ok (some ⟨202, none⟩)⟩,
     ⟨"star", fun _ => Except.ok none⟩,
     ⟨"star", fun _ => Except.ok (some ⟨201, none⟩)⟩,
     ⟨"star", fun _ => Except.ok (some ⟨203, none⟩)⟩] none () (by decide) (by decide) rfl
  exact ⟨h.1, h.2.1, by decide, by decide⟩

/-- Claim C5: on an authorized request, a JSON decode failure yields the
bodiless 500 response, and so does a fault thrown by the first matching handler
whose result is not `void` — the same response in both cases; `handle` is a
total function, so no fault propagates past it. -/
theorem claim5_fault_500 {α : Type} (hmacHex : String → String → String)
    (parseJson : String → Option α) (req : Request) (handlers : List (Handler α))
    (secret : Option String)
    (hte : truthy (parseHeaders req.headers).event = true)
    (hsec : truthy secret = true →
      truthy (parseHeaders req.headers).signature = true ∧
      (validateSignature hmacHex ((parseHeaders req.headers).signature.getD "") req.body
        (secret.getD "") ((parseHeaders req.headers).event.getD "")).1 = true) :
    (parseJson req.body = none →
      handle hmacHex parseJson req handlers secret = some ⟨500, none⟩) ∧
    (∀ (payload : α) (k : Nat) (h' : Handler α),
      parseJson req.body = some payload →
      handlers[k]? = some h' →
      h'.event = (parseHeaders req.headers).event.getD "" →
      h'.handler payload = Except.error () →
      (∀ (j : Nat) (h'' : Handler α), j < k → handlers[j]? = some h'' →
        h''.event = (parseHeaders req.headers).event.getD "" →
        h''.handler payload = Except.ok none) →
      handle hmacHex parseJson req handlers secret = some ⟨500, none⟩) := by
  rw [handle_authorized hmacHex parseJson req handlers secret hte hsec]
  constructor
  · intro hn
    rw [hn]
  · intro payload k h' hp hk hev hthrow hprior
    rw [hp]
    exact runHandlers_first_error ((parseHeaders req.headers).event.getD "") payload
      handlers k h' hk (beq_iff_eq.mpr hev) hthrow
      (fun j h'' hj hg he => hprior j h'' hj hg (beq_iff_eq.mp he))

/-- Witness for C5: an authorized request whose body fails to decode yields the
bodiless 500 response. -/
theorem claim5_witness :
    handle (α := Unit) (fun _ _ => "") (fun _ => none)
        ⟨"oops", [("x-github-event", "push")]⟩ [] none = some ⟨500, none⟩ :=
  (claim5_fault_500 (α := Unit) (fun _ _ => "") (fun _ => none)
    ⟨"oops", [("x-github-event", "push")]⟩ [] none (by decide) (by decide)).1 rfl

/-- Counterexample to C7 as stated: with no matching handler (here: none at
all), a request with the event header missing yields the 403 response, and an
authorized request whose body fails to decode yields the 500 response — in
neither case is the result absent, so "regardless of authorization outcome"
fails. -/
theorem claim7_counterexample :
    handle (α := Unit) (fun _ _ => "") (fun _ => some ()) ⟨"{}", []⟩ [] none =
      some ⟨403, none⟩ ∧
    handle (α := Unit) (fun _ _ => "") (fun _ => none)
      ⟨"nope", [("x-github-event", "push")]⟩ [] none = some ⟨500, none⟩ := by decide

/-- Claim C7 (amended): on an authorized request whose body decodes
successfully, if no registered handler's declared event equals the inbound
event name, `handle` completes with an absent result (not an error
response). -/
theorem claim7_no_match_none {α : Type} (hmacHex : String → String → String)
    (parseJson : String → Option α) (req : Request) (handlers : List (Handler α))
    (secret : Option String) (payload : α)
    (hte : truthy (parseHeaders req.headers).event = true)
    (hsec : truthy secret = true →
      truthy (parseHeaders req.headers).signature = true ∧
      (validateSignature hmacHex ((parseHeaders req.headers).signature.getD "") req.body
        (secret.getD "") ((parseHeaders req.headers).event.getD "")).1 = true)
    (hp : parseJson req.body = some payload)
    (hno : ∀ h ∈ handlers, h.event ≠ (parseHeaders req.headers).event.getD "") :
    handle hmacHex parseJson req handlers secret = none := by
  rw [handle_authorized hmacHex parseJson req handlers secret hte hsec, hp]
  exact runHandlers_no_match ((parseHeaders req.headers).event.getD "") payload handlers hno

/-- Witness for the amended C7: a `"star"` request against a single `"push"`
handler dispatches to nothing and returns the absent result. -/
theorem claim7_witness :
    handle (α := Unit) (fun _ _ => "") (fun _ => some ())
        ⟨"{}", [("x-github-event", "star")]⟩
        [⟨"push", fun _ => Except.ok (some ⟨202, none⟩)⟩] none = none :=
  claim7_no_match_none (α := Unit) (fun _ _ => "") (fun _ => some ())
    ⟨"{}", [("x-github-event", "star")]⟩
    [⟨"push", fun _ => Except.ok (some ⟨202, none⟩)⟩] none ()
    (by decide) (by decide) rfl
    (by
      intro h hh
      simp only [List.mem_singleton] at hh
      subst hh
      decide)

/-- Claim C6, at the failing input: with the default path token `''` (installed
by `listen(port, pathname = '')`), a POST to the root path `"/"` is *not*
forwarded by `mod.ts`'s listener — it answers 404 — because a URL pathname
always starts with `"/"` and is compared to `''` verbatim; the sibling source's
listener (`serveHandlerAlt`), which treats an empty token as root, forwards the
same request to the pipeline and answers 200 as the claim (and the README
example `webhook(...).on(...).listen(3000)`) expects. -/
theorem claim6_empty_path_bug :
    (webhook Unit none).listenHandler (fun _ _ => "") (fun _ => some ()) ""
        ⟨"POST", "/", "{}", [("x-github-event", "star")]⟩ = ⟨404, none⟩ ∧
    serveHandlerAlt (α := Unit) (fun _ _ => "") (fun _ => some ()) "" [] none
        ⟨"POST", "/", "{}", [("x-github-event", "star")]⟩ = ⟨200, none⟩ := by decide

end GithubWebhook
